import Mathlib

/-!
Verification of the conversation/tool-orchestration core of the
`erpnext_chatgpt` repository (files `erpnext_chatgpt/api.py` and
`erpnext_chatgpt/tools.py`).

The Python source is shallowly embedded:

* a Python dict-shaped chat message becomes the structure `Message`
  (optional fields model keys that may be absent / `None`);
* `estimate_token_count`, `trim_conversation_to_token_limit`,
  `handle_tool_calls` and `ask_openai_question` from `api.py` become Lean
  functions; the unbounded `while` loop of the trimmer is given fuel
  semantics (`trimFuel`), with `none` denoting a run that does not finish;
* everything external to the orchestration core (the OpenAI client, the
  frappe database layer inside the tool implementations, `json.loads` on
  tool arguments, timestamps, the best-effort result summarizer) is an
  input, collected in the environment record `Env`;
* raised-and-caught Python exceptions are `Except` values.
-/

namespace ErpnextChatgpt

/-- A `tool_call` object of the OpenAI response: `id`, `function.name` and
`function.arguments` (the raw JSON text of the arguments). -/
structure ToolCall where
  id : String
  function_name : String
  function_arguments : String
deriving DecidableEq

/-- One conversation message, as the Python dicts used throughout
`api.py`.  A field holding `none` models an absent key (or a key set to
`None`).  `tool_calls` carries the requests attached to an assistant
message (empty for every other message). -/
structure Message where
  role : Option String
  content : Option String
  tool_call_id : Option String
  name : Option String
  tool_calls : List ToolCall
deriving DecidableEq

/-- A `tool_usage_entry` dict built by `handle_tool_calls`
(api.py lines 90-159).  `parameters` holds the decoded arguments value
(modelled opaquely by a string), `error` is present only on failures. -/
structure LogEntry where
  tool_name : String
  parameters : String
  timestamp : String
  result_summary : String
  status : String
  error : Option String
deriving DecidableEq

/-- The assistant message returned by one `chat.completions.create` call:
its `content` and its (possibly empty) list of tool calls.  The OpenAI
SDK reports "no tool calls" as `None`; Python's `if tool_calls:` treats
`None` and `[]` alike, so both are modelled by the empty list. -/
structure ResponseMessage where
  content : Option String
  tool_calls : List ToolCall
deriving DecidableEq

/-! ## Tool registry (`tools.py`)

Each `*_tool` dict in `tools.py` advertises one function name to the
model; only that name is relevant to the claims, so `ToolSchema` keeps
the `function.name` field and leaves description/parameter schema
opaque.  The implementations are frappe-bound Python functions; they are
identified here by the enumeration `ToolImpl` and their behaviour is
supplied by the environment. -/

structure ToolSchema where
  function_name : String
deriving DecidableEq

/-- Tags for the 21 Python query functions referenced by
`available_functions` (tools.py lines 1952-1974). -/
inductive ToolImpl where
  | get_sales_invoices
  | get_sales_invoice
  | list_invoices
  | get_employees
  | get_purchase_orders
  | get_customers
  | list_customers
  | get_stock_levels
  | get_general_ledger_entries
  | get_profit_and_loss_statement
  | get_outstanding_invoices
  | get_sales_orders
  | list_quotations
  | list_sales_orders
  | list_delivery_notes
  | get_delivery_note
  | get_purchase_invoices
  | get_journal_entries
  | get_payments
  | list_service_protocols
  | get_service_protocol
deriving DecidableEq

def get_sales_invoices_tool : ToolSchema := ⟨"get_sales_invoices"⟩

def get_sales_invoice_tool : ToolSchema := ⟨"get_sales_invoice"⟩

def list_invoices_tool : ToolSchema := ⟨"list_invoices"⟩

def get_employees_tool : ToolSchema := ⟨"get_employees"⟩

def get_purchase_orders_tool : ToolSchema := ⟨"get_purchase_orders"⟩

def get_customers_tool : ToolSchema := ⟨"get_customers"⟩

def list_customers_tool : ToolSchema := ⟨"list_customers"⟩

def get_stock_levels_tool : ToolSchema := ⟨"get_stock_levels"⟩

def get_general_ledger_entries_tool : ToolSchema := ⟨"get_general_ledger_entries"⟩

def get_profit_and_loss_statement_tool : ToolSchema := ⟨"get_profit_and_loss_statement"⟩

def get_outstanding_invoices_tool : ToolSchema := ⟨"get_outstanding_invoices"⟩

def get_sales_orders_tool : ToolSchema := ⟨"get_sales_orders"⟩

def list_quotations_tool : ToolSchema := ⟨"list_quotations"⟩

def list_sales_orders_tool : ToolSchema := ⟨"list_sales_orders"⟩

def list_delivery_notes_tool : ToolSchema := ⟨"list_delivery_notes"⟩

def get_delivery_note_tool : ToolSchema := ⟨"get_delivery_note"⟩

def get_purchase_invoices_tool : ToolSchema := ⟨"get_purchase_invoices"⟩

def get_journal_entries_tool : ToolSchema := ⟨"get_journal_entries"⟩

def get_payments_tool : ToolSchema := ⟨"get_payments"⟩

def list_service_protocols_tool : ToolSchema := ⟨"list_service_protocols"⟩

def get_service_protocol_tool : ToolSchema := ⟨"get_service_protocol"⟩

/-- `get_tools()` (tools.py lines 1926-1949): the tool schema list sent
to the model, in source order. -/
def get_tools : List ToolSchema :=
  [get_sales_invoices_tool,
   get_sales_invoice_tool,
   list_invoices_tool,
   get_employees_tool,
   get_purchase_orders_tool,
   get_customers_tool,
   list_customers_tool,
   get_stock_levels_tool,
   get_general_ledger_entries_tool,
   get_profit_and_loss_statement_tool,
   get_outstanding_invoices_tool,
   get_sales_orders_tool,
   list_quotations_tool,
   list_sales_orders_tool,
   list_delivery_notes_tool,
   get_delivery_note_tool,
   get_purchase_invoices_tool,
   get_journal_entries_tool,
   get_payments_tool,
   list_service_protocols_tool,
   get_service_protocol_tool]

/-- `available_functions` (tools.py lines 1952-1974): the name → callable
lookup dict, in source order. -/
def available_functions : List (String × ToolImpl) :=
  [("get_sales_invoices", .get_sales_invoices),
   ("get_sales_invoice", .get_sales_invoice),
   ("list_invoices", .list_invoices),
   ("get_employees", .get_employees),
   ("get_purchase_orders", .get_purchase_orders),
   ("get_customers", .get_customers),
   ("list_customers", .list_customers),
   ("get_stock_levels", .get_stock_levels),
   ("get_general_ledger_entries", .get_general_ledger_entries),
   ("get_profit_and_loss_statement", .get_profit_and_loss_statement),
   ("get_outstanding_invoices", .get_outstanding_invoices),
   ("get_sales_orders", .get_sales_orders),
   ("list_quotations", .list_quotations),
   ("list_sales_orders", .list_sales_orders),
   ("list_delivery_notes", .list_delivery_notes),
   ("get_delivery_note", .get_delivery_note),
   ("get_purchase_invoices", .get_purchase_invoices),
   ("get_journal_entries", .get_journal_entries),
   ("get_payments", .get_payments),
   ("list_service_protocols", .list_service_protocols),
   ("get_service_protocol", .get_service_protocol)]

/-! ## Token estimator and trimmer (`api.py` lines 169-193) -/

/-- Helper for `wordCount`: counts the maximal whitespace-free runs of a
character list; the flag records whether the scan is currently inside
such a run. -/
def wordCountAux : Bool → List Char → Nat
  | _, [] => 0
  | inWord, c :: rest =>
    if c.isWhitespace then wordCountAux false rest
    else (if inWord then 0 else 1) + wordCountAux true rest

/-- `len(s.split())` for a Python string: the number of maximal
whitespace-free runs (Python's argumentless `split` splits on runs of
whitespace and drops empty fragments). -/
def wordCount (s : String) : Nat :=
  wordCountAux false s.data

/-- `estimate_token_count` (api.py lines 169-178): messages whose
`content` key is present (not `None`) contribute
`4 + int(word_count * 1.5)`; the truncation of a non-negative multiple
of 1.5 is `3 * words / 2` in natural division. -/
def estimate_token_count (messages : List Message) : Nat :=
  ((messages.filter fun m => m.content.isSome).map fun m =>
    4 + 3 * wordCount (m.content.getD "") / 2).sum

/-- The body of the trim loop's inner `for` (api.py lines 189-192):
delete the first message whose `role` is not `"system"`; if every
message is a system message, the list is returned unchanged. -/
def removeFirstNonSystem : List Message → List Message
  | [] => []
  | m :: rest =>
    if m.role ≠ some "system" then rest
    else m :: removeFirstNonSystem rest

/-- Fuel semantics of the `while` loop of
`trim_conversation_to_token_limit` (api.py lines 187-193): while the
estimate exceeds the limit and more than one message remains, remove the
first non-system message.  Each unit of fuel pays for one loop
iteration (one removal attempt); `none` means the loop did not finish
within the given fuel. -/
def trimFuel (token_limit : Nat) : Nat → List Message → Option (List Message)
  | fuel, conversation =>
    if token_limit < estimate_token_count conversation ∧ 1 < conversation.length then
      match fuel with
      | 0 => none
      | fuel' + 1 => trimFuel token_limit fuel' (removeFirstNonSystem conversation)
    else some conversation

/-- `trim_conversation_to_token_limit` (api.py lines 180-193), run with
fuel `length conversation`.  A terminating run of the Python loop
performs at most one removal per original message, so this fuel is
sufficient exactly for the terminating runs; `none` marks a conversation
on which the Python loop never exits. -/
def trim_conversation_to_token_limit (conversation : List Message) (token_limit : Nat) :
    Option (List Message) :=
  trimFuel token_limit conversation.length conversation

/-! ## Orchestration (`api.py` lines 70-167 and 195-256)

`Env` packages every external collaborator touched by one run of
`ask_openai_question`.  The two `chat.completions.create` calls are
abstracted by their outcomes (`firstResponse`, `secondResponse`); a
`.error` value is an exception raised by the call.  `parseArgs` is
`json.loads` applied to a tool call's argument text (its `.ok` value is
the decoded arguments object, modelled opaquely by a string);
`impl fn args` is the outcome of invoking implementation `fn` with those
arguments (`.error` = the implementation raised).  `getClient` is
`get_openai_client` (raises when no API key is configured); `maxTokens`
and `model` are the settings after the defaults of `get_model_settings`
are applied; `now` is `frappe.utils.now()`; `summarize` is the
best-effort result summary of api.py lines 100-149 (a total function of
the response text — the bare `except` there guarantees it never
raises). -/
structure Env where
  getClient : Except String Unit
  systemInstructions : String
  model : String
  maxTokens : Nat
  firstResponse : Except String ResponseMessage
  secondResponse : Except String ResponseMessage
  parseArgs : String → Except String String
  impl : ToolImpl → String → Except String String
  now : String
  summarize : String → String

/-- The tool-result message appended on a successful dispatch
(api.py lines 161-166). -/
def toolMessage (tc : ToolCall) (resp : String) : Message :=
  ⟨some "tool", some resp, some tc.id, some tc.function_name, []⟩

/-- The usage-log entry appended on a successful dispatch
(api.py lines 90-94 and 100-151): the entry reaches the log only with
`status = "success"`; on an implementation failure the entry is given
`status = "error"` but the `raise` on line 157 fires before the
append on line 159, so such an entry never reaches the log. -/
def mkLogEntry (env : Env) (tc : ToolCall) (args resp : String) : LogEntry :=
  ⟨tc.function_name, args, env.now, env.summarize resp, "success", none⟩

/-- One iteration of the `for tool_call in tool_calls` loop of
`handle_tool_calls` (api.py lines 80-166), up to the appends: resolve
the name against `available_functions` (raising
`Function <name> not found.` when absent, lines 82-85), decode the
arguments (line 87, a decode failure raises), invoke the implementation
(line 97, a failure raises after logging), and on success produce the
tool-result message and the usage-log entry to append. -/
def dispatchStep (env : Env) (tc : ToolCall) : Except String (Message × LogEntry) :=
  match available_functions.lookup tc.function_name with
  | none => .error ("Function " ++ tc.function_name ++ " not found.")
  | some fn =>
    match env.parseArgs tc.function_arguments with
    | .error e => .error e
    | .ok args =>
      match env.impl fn args with
      | .error e => .error e
      | .ok resp => .ok (toolMessage tc resp, mkLogEntry env tc args resp)

/-- Result of `handle_tool_calls`: the conversation and usage log after
all in-place appends, and the exception (if any) that aborted the batch.
Python mutates `conversation` and `tool_usage_log` in place, so appends
made before a raise are retained even though the raise propagates. -/
structure DispatchResult where
  conversation : List Message
  tool_usage_log : List LogEntry
  err : Option String
deriving DecidableEq

/-- `handle_tool_calls` (api.py lines 70-167): process the requests in
order; on the first failing request stop with the raised exception
(earlier appends retained), otherwise append one tool-result message and
one usage-log entry per request. -/
def handle_tool_calls (env : Env) :
    List ToolCall → List Message → List LogEntry → DispatchResult
  | [], conversation, log => ⟨conversation, log, none⟩
  | tc :: rest, conversation, log =>
    match dispatchStep env tc with
    | .error e => ⟨conversation, log, some e⟩
    | .ok (msg, entry) =>
      handle_tool_calls env rest (conversation ++ [msg]) (log ++ [entry])

/-- The value returned by `ask_openai_question`: either a final assistant
message together with the accumulated `tool_usage` list (lines 245-253),
or the error dict `{error: message, tool_usage: []}` built by the
`except` clause (line 256). -/
inductive FinalResult where
  | answer (message : ResponseMessage) (tool_usage : List LogEntry)
  | failure (error : String) (tool_usage : List LogEntry)
deriving DecidableEq

/-- The `tool_usage` list carried by a result. -/
def FinalResult.usage : FinalResult → List LogEntry
  | .answer _ u => u
  | .failure _ u => u

/-- Outcome of the `try` block of `ask_openai_question` before the
`except` clause is applied.  `calls` records the
`chat.completions.create` calls issued so far, in order, each entry
telling whether the tool schema list was attached (`true` for the first
call, which passes `tools=get_tools()`; `false` for the second, which
passes none).  `diverges` marks a run stuck in the trim loop. -/
inductive RunOutcome where
  | diverges
  | raises (e : String) (calls : List Bool)
  | returns (r : FinalResult) (calls : List Bool)
deriving DecidableEq

/-- The system message inserted at position 0 (api.py line 210). -/
def systemMessage (env : Env) : Message :=
  ⟨some "system", some env.systemInstructions, none, none, []⟩

/-- api.py lines 209-210: insert the system instructions when the
conversation is empty or does not start with a system message. -/
def seedConversation (env : Env) (conversation : List Message) : List Message :=
  match conversation with
  | [] => [systemMessage env]
  | m :: rest =>
    if m.role ≠ some "system" then systemMessage env :: m :: rest
    else m :: rest

/-- `response_message.model_dump()` appended to the conversation when the
model requested tools (api.py line 234). -/
def assistantMessage (rm : ResponseMessage) : Message :=
  ⟨some "assistant", rm.content, none, none, rm.tool_calls⟩

/-- The `try` block of `ask_openai_question` (api.py lines 204-253):
obtain the client, seed and trim the conversation, issue the first model
call with the tool schema attached; without tool calls return the
assistant message with an empty usage log; with tool calls append the
assistant message, dispatch, re-trim and issue the second call (no tool
schema) to obtain the final answer. -/
def askBody (env : Env) (conversation : List Message) : RunOutcome :=
  match env.getClient with
  | .error e => .raises e []
  | .ok _ =>
    match trim_conversation_to_token_limit (seedConversation env conversation) env.maxTokens with
    | none => .diverges
    | some conv2 =>
      match env.firstResponse with
      | .error e => .raises e [true]
      | .ok rm =>
        if rm.tool_calls.isEmpty then .returns (.answer rm []) [true]
        else
          let d := handle_tool_calls env rm.tool_calls (conv2 ++ [assistantMessage rm]) []
          match d.err with
          | some e => .raises e [true]
          | none =>
            match trim_conversation_to_token_limit d.conversation env.maxTokens with
            | none => .diverges
            | some _ =>
              match env.secondResponse with
              | .error e => .raises e [true, false]
              | .ok rm2 => .returns (.answer rm2 d.tool_usage_log) [true, false]

/-- `ask_openai_question` (api.py lines 195-256): the `try` block wrapped
in the boundary `except`, which converts any raised exception into
`{error: str(e), tool_usage: []}`.  `none` is a run stuck in the trim
loop (the Python call never returns); otherwise the final result is
paired with the list of model-client calls issued. -/
def ask_openai_question (env : Env) (conversation : List Message) :
    Option (FinalResult × List Bool) :=
  match askBody env conversation with
  | .diverges => none
  | .raises e calls => some (.failure e [], calls)
  | .returns r calls => some (r, calls)

/-! ## `get_profit_and_loss_statement` (`tools.py` lines 612-629) -/

/-- A Python return value that is either `None` or the `json.dumps` of
an error dict `{"error": msg}`. -/
inductive PyReturn where
  | pyNone
  | errorObj (msg : String)
deriving DecidableEq

/-- Python truthiness of an optional string parameter: `None` and the
empty string are falsy. -/
def truthyStr : Option String → Bool
  | none => false
  | some s => !s.isEmpty

/-- `get_profit_and_loss_statement` (tools.py lines 612-629).  When any
of the three parameters is missing or falsy it returns the dumped error
dict.  Otherwise the body fetches the report document and builds a
`filters` dict (both frappe-side and unused) and then ends without a
`return` statement, so the function yields Python's implicit `None`. -/
def get_profit_and_loss_statement
    (period_start_date period_end_date periodicity : Option String) : PyReturn :=
  if !truthyStr period_start_date || !truthyStr period_end_date || !truthyStr periodicity then
    .errorObj "period_start_date, periodicity and period_end_date are required"
  else
    .pyNone

/-! ## Derived notions used by the claim statements -/

/-- Whether a message has role `system` (the role the trim loop never
removes). -/
def isSystemMsg (m : Message) : Bool := m.role = some "system"

/-- The tool-result message a successful dispatch of `tc` appends
(`none` when the dispatch of `tc` fails). -/
def stepMsg (env : Env) (tc : ToolCall) : Option Message :=
  (dispatchStep env tc).toOption.map Prod.fst

/-- The usage-log entry a successful dispatch of `tc` appends (`none`
when the dispatch of `tc` fails). -/
def stepEntry (env : Env) (tc : ToolCall) : Option LogEntry :=
  (dispatchStep env tc).toOption.map Prod.snd

/-- The model-client calls a run has issued (empty for a divergent
run, which never reaches a return). -/
def RunOutcome.calls : RunOutcome → List Bool
  | .diverges => []
  | .raises _ c => c
  | .returns _ c => c

/-- The estimator exactly as the specification words it for claim C3:
only messages with NON-EMPTY content contribute; each contributes the
per-message constant 4 plus the truncated `word_count * 1.5`. -/
def specEstimateNonempty (messages : List Message) : Nat :=
  ((messages.filter fun m => m.content.getD "" ≠ "").map fun m =>
    4 + 3 * wordCount (m.content.getD "") / 2).sum

/-- The estimator with the amended qualification: messages whose
`content` key is PRESENT (not `None`) contribute 4 plus the truncated
`word_count * 1.5`; messages without content contribute zero. -/
def specEstimatePresent (messages : List Message) : Nat :=
  (messages.map fun m =>
    match m.content with
    | none => 0
    | some s => 4 + 3 * wordCount s / 2).sum

/-! ## Concrete inputs used by the witnesses and counterexamples -/

/-- A one-word system message. -/
def msgSysA : Message := ⟨some "system", some "a", none, none, []⟩

/-- A second one-word system message. -/
def msgSysB : Message := ⟨some "system", some "b", none, none, []⟩

/-- A one-word user message. -/
def msgUserB : Message := ⟨some "user", some "b", none, none, []⟩

/-- A user message whose content is the empty string (present but
empty). -/
def msgEmptyContent : Message := ⟨some "user", some "", none, none, []⟩

/-- Two system messages, jointly over any small budget: the trim loop
finds no removable message and spins forever. -/
def allSystemConv : List Message := [msgSysA, msgSysB]

/-- A conversation with one system prompt and one user message. -/
def smallConv : List Message := [msgSysA, msgUserB]

/-- A tool call naming a function absent from `available_functions`. -/
def tcUnknown : ToolCall := ⟨"call_0", "nonexistent_tool", ""⟩

/-- A tool call for the registered function `get_sales_invoices`. -/
def tcKnown : ToolCall := ⟨"call_1", "get_sales_invoices", "raw_args"⟩

/-- First response requesting the unknown tool. -/
def rmUnknown : ResponseMessage := ⟨none, [tcUnknown]⟩

/-- First response requesting one registered tool. -/
def rmKnown : ResponseMessage := ⟨none, [tcKnown]⟩

/-- Final assistant answer used by the happy-path environments. -/
def rmFinal : ResponseMessage := ⟨some "done", []⟩

/-- Environment whose first model call raises. -/
def envFirstFails : Env :=
  ⟨.ok (), "hello", "gpt-3.5-turbo", 100, .error "boom", .error "unreached",
   fun s => .ok s, fun _ _ => .ok "parsed", "ts", fun _ => "Data retrieved"⟩

/-- Environment whose first response requests a tool that is not in the
registry. -/
def envUnknownTool : Env :=
  ⟨.ok (), "hello", "gpt-3.5-turbo", 100, .ok rmUnknown, .ok rmFinal,
   fun s => .ok s, fun _ _ => .ok "parsed", "ts", fun _ => "Data retrieved"⟩

/-- Environment for a fully successful one-tool round trip. -/
def envHappy : Env :=
  ⟨.ok (), "hello", "gpt-3.5-turbo", 100, .ok rmKnown, .ok rmFinal,
   fun s => .ok s, fun _ _ => .ok "ok_result", "ts", fun _ => "Data retrieved"⟩

/-! ## Lemmas about one trim-loop iteration -/

theorem removeFirstNonSystem_sublist (l : List Message) :
    (removeFirstNonSystem l).Sublist l := by
  induction l with
  | nil => exact List.Sublist.refl _
  | cons m rest ih =>
    by_cases h : m.role ≠ some "system"
    · rw [removeFirstNonSystem, if_pos h]
      exact List.sublist_cons_self m rest
    · rw [removeFirstNonSystem, if_neg h]
      exact ih.cons₂ m

theorem removeFirstNonSystem_filter_system (l : List Message) :
    (removeFirstNonSystem l).filter isSystemMsg = l.filter isSystemMsg := by
  induction l with
  | nil => rfl
  | cons m rest ih =>
    by_cases h : m.role = some "system"
    · have hm : isSystemMsg m = true := by simp [isSystemMsg, h]
      simp [removeFirstNonSystem, h, List.filter_cons, hm, ih]
    · have hm : isSystemMsg m = false := by simp [isSystemMsg, h]
      simp [removeFirstNonSystem, h, List.filter_cons, hm]

theorem removeFirstNonSystem_filter_non (l : List Message) :
    ∃ k, (removeFirstNonSystem l).filter (fun m => !isSystemMsg m) =
      ((l.filter fun m => !isSystemMsg m).drop k) := by
  induction l with
  | nil => exact ⟨0, rfl⟩
  | cons m rest ih =>
    by_cases h : m.role = some "system"
    · obtain ⟨k, hk⟩ := ih
      have hm : isSystemMsg m = true := by simp [isSystemMsg, h]
      exact ⟨k, by simp [removeFirstNonSystem, h, List.filter_cons, hm, hk]⟩
    · have hm : isSystemMsg m = false := by simp [isSystemMsg, h]
      exact ⟨1, by simp [removeFirstNonSystem, h, List.filter_cons, hm]⟩

theorem removeFirstNonSystem_length (l : List Message)
    (h : ∃ m ∈ l, isSystemMsg m = false) :
    (removeFirstNonSystem l).length + 1 = l.length := by
  induction l with
  | nil => simp at h
  | cons m rest ih =>
    by_cases hm : m.role = some "system"
    · have hrest : ∃ m' ∈ rest, isSystemMsg m' = false := by
        obtain ⟨x, hx, hxf⟩ := h
        rcases List.mem_cons.mp hx with rfl | hx'
        · exact absurd hxf (by simp [isSystemMsg, hm])
        · exact ⟨x, hx', hxf⟩
      have := ih hrest
      simp only [removeFirstNonSystem, hm]
      simp [this]
    · simp [removeFirstNonSystem, hm]

theorem removeFirstNonSystem_eq_self (l : List Message)
    (h : ∀ m ∈ l, isSystemMsg m = true) : removeFirstNonSystem l = l := by
  induction l with
  | nil => rfl
  | cons m rest ih =>
    have hm : m.role = some "system" := by
      have := h m (List.mem_cons_self m rest)
      simpa [isSystemMsg] using this
    simp [removeFirstNonSystem, hm, ih fun m' hm' => h m' (List.mem_cons_of_mem m hm')]

/-! ## Lemmas about the trim loop -/

theorem trimFuel_none_of_fixed (token_limit : Nat) (l : List Message)
    (hfix : removeFirstNonSystem l = l)
    (hc : token_limit < estimate_token_count l ∧ 1 < l.length) :
    ∀ fuel, trimFuel token_limit fuel l = none := by
  intro fuel
  induction fuel with
  | zero => simp [trimFuel, hc]
  | succ n ih => simp [trimFuel, hc, hfix, ih]

theorem trimFuel_terminates (token_limit : Nat) :
    ∀ fuel l, l.length ≤ fuel →
      ¬(token_limit < estimate_token_count (l.filter isSystemMsg) ∧
          1 < (l.filter isSystemMsg).length) →
      ∃ r, trimFuel token_limit fuel l = some r ∧
        (estimate_token_count r ≤ token_limit ∨ r.length = 1) ∧
        (l.length ≤ 1 → r = l) := by
  intro fuel
  induction fuel with
  | zero =>
    intro l hlen hres
    have hnil : l = [] := List.length_eq_zero.mp (Nat.le_zero.mp hlen)
    subst hnil
    refine ⟨[], by simp [trimFuel], ?_, fun _ => rfl⟩
    left
    show estimate_token_count [] ≤ token_limit
    simp [estimate_token_count]
  | succ n ih =>
    intro l hlen hres
    by_cases hc : token_limit < estimate_token_count l ∧ 1 < l.length
    · have hex : ∃ m ∈ l, isSystemMsg m = false := by
        by_contra hall
        push_neg at hall
        have hall' : ∀ m ∈ l, isSystemMsg m = true := by
          intro m hm
          simpa using hall m hm
        have hself : l.filter isSystemMsg = l := List.filter_eq_self.mpr hall'
        rw [hself] at hres
        exact hres hc
      have hlen' : (removeFirstNonSystem l).length ≤ n := by
        have := removeFirstNonSystem_length l hex
        omega
      have hres' : ¬(token_limit <
          estimate_token_count ((removeFirstNonSystem l).filter isSystemMsg) ∧
          1 < ((removeFirstNonSystem l).filter isSystemMsg).length) := by
        rw [removeFirstNonSystem_filter_system]
        exact hres
      obtain ⟨r, hr, hp, _⟩ := ih (removeFirstNonSystem l) hlen' hres'
      refine ⟨r, by simp [trimFuel, hc, hr], hp, fun hle => absurd hc.2 (by omega)⟩
    · refine ⟨l, by simp [trimFuel, hc], ?_, fun _ => rfl⟩
      by_cases h1 : estimate_token_count l ≤ token_limit
      · exact Or.inl h1
      · have h2 : ¬ 1 < l.length := fun hgt => hc ⟨by omega, hgt⟩
        by_cases h3 : l.length = 1
        · exact Or.inr h3
        · have hnil : l = [] := List.length_eq_zero.mp (by omega)
          subst hnil
          left
          show estimate_token_count [] ≤ token_limit
          simp [estimate_token_count]

theorem trimFuel_structure (token_limit : Nat) :
    ∀ fuel l r, trimFuel token_limit fuel l = some r →
      r.Sublist l ∧
      r.filter isSystemMsg = l.filter isSystemMsg ∧
      ∃ k, r.filter (fun m => !isSystemMsg m) =
        ((l.filter fun m => !isSystemMsg m).drop k) := by
  intro fuel
  induction fuel with
  | zero =>
    intro l r h
    by_cases hc : token_limit < estimate_token_count l ∧ 1 < l.length
    · simp [trimFuel, hc] at h
    · simp [trimFuel, hc] at h
      subst h
      exact ⟨List.Sublist.refl _, rfl, ⟨0, rfl⟩⟩
  | succ n ih =>
    intro l r h
    by_cases hc : token_limit < estimate_token_count l ∧ 1 < l.length
    · simp only [trimFuel, if_pos hc] at h
      obtain ⟨h1, h2, k, h3⟩ := ih (removeFirstNonSystem l) r h
      refine ⟨h1.trans (removeFirstNonSystem_sublist l), ?_, ?_⟩
      · rw [h2, removeFirstNonSystem_filter_system]
      · obtain ⟨j, hj⟩ := removeFirstNonSystem_filter_non l
        exact ⟨j + k, by rw [h3, hj, List.drop_drop]⟩
    · simp [trimFuel, hc] at h
      subst h
      exact ⟨List.Sublist.refl _, rfl, ⟨0, rfl⟩⟩

/-! ## Lemmas about the dispatcher -/

theorem dispatchStep_isOk_parts (env : Env) (tc : ToolCall)
    (h : (dispatchStep env tc).isOk = true) :
    ∃ fn args resp,
      available_functions.lookup tc.function_name = some fn ∧
      env.parseArgs tc.function_arguments = Except.ok args ∧
      env.impl fn args = Except.ok resp ∧
      stepMsg env tc = some (toolMessage tc resp) ∧
      stepEntry env tc = some (mkLogEntry env tc args resp) := by
  unfold dispatchStep at h
  cases hl : available_functions.lookup tc.function_name with
  | none => simp only [hl] at h; simp [Except.isOk, Except.toBool] at h
  | some fn =>
    simp only [hl] at h
    cases hp : env.parseArgs tc.function_arguments with
    | error e => simp only [hp] at h; simp [Except.isOk, Except.toBool] at h
    | ok args =>
      simp only [hp] at h
      cases hi : env.impl fn args with
      | error e => simp only [hi] at h; simp [Except.isOk, Except.toBool] at h
      | ok resp =>
        refine ⟨fn, args, resp, rfl, rfl, hi, ?_, ?_⟩
        · simp [stepMsg, dispatchStep, hl, hp, hi, Except.toOption]
        · simp [stepEntry, dispatchStep, hl, hp, hi, Except.toOption]

theorem dispatchStep_ok_status (env : Env) (tc : ToolCall)
    (p : Message × LogEntry) (h : dispatchStep env tc = Except.ok p) :
    p.2.status = "success" := by
  obtain ⟨fn, args, resp, _, _, _, _, he⟩ :=
    dispatchStep_isOk_parts env tc (by rw [h]; rfl)
  have hsome : some p.2 = some (mkLogEntry env tc args resp) := by
    rw [← he]; simp [stepEntry, h, Except.toOption]
  have : p.2 = mkLogEntry env tc args resp := Option.some.inj hsome
  rw [this]; rfl

theorem handle_ok_append (env : Env) :
    ∀ tcs conv log, (∀ tc ∈ tcs, (dispatchStep env tc).isOk = true) →
      handle_tool_calls env tcs conv log =
        ⟨conv ++ tcs.filterMap (stepMsg env),
         log ++ tcs.filterMap (stepEntry env), none⟩ := by
  intro tcs
  induction tcs with
  | nil => intro conv log _; simp [handle_tool_calls]
  | cons tc rest ih =>
    intro conv log hok
    cases hd : dispatchStep env tc with
    | error e =>
      have := hok tc (List.mem_cons_self tc rest)
      rw [hd] at this
      simp [Except.isOk, Except.toBool] at this
    | ok p =>
      have hmsg : stepMsg env tc = some p.1 := by
        simp [stepMsg, hd, Except.toOption]
      have hentry : stepEntry env tc = some p.2 := by
        simp [stepEntry, hd, Except.toOption]
      have hrest : ∀ t ∈ rest, (dispatchStep env t).isOk = true :=
        fun t ht => hok t (List.mem_cons_of_mem tc ht)
      simp only [handle_tool_calls, hd]
      rw [ih (conv ++ [p.1]) (log ++ [p.2]) hrest]
      simp [hmsg, hentry, List.append_assoc]

theorem handle_stops_at_first_error (env : Env) (e : String) :
    ∀ pre tc rest conv log, (∀ t ∈ pre, (dispatchStep env t).isOk = true) →
      dispatchStep env tc = Except.error e →
      handle_tool_calls env (pre ++ tc :: rest) conv log =
        ⟨conv ++ pre.filterMap (stepMsg env),
         log ++ pre.filterMap (stepEntry env), some e⟩ := by
  intro pre
  induction pre with
  | nil =>
    intro tc rest conv log _ herr
    simp [handle_tool_calls, herr]
  | cons t pre' ih =>
    intro tc rest conv log hok herr
    cases hd : dispatchStep env t with
    | error e' =>
      have := hok t (List.mem_cons_self t pre')
      rw [hd] at this
      simp [Except.isOk, Except.toBool] at this
    | ok p =>
      have hmsg : stepMsg env t = some p.1 := by
        simp [stepMsg, hd, Except.toOption]
      have hentry : stepEntry env t = some p.2 := by
        simp [stepEntry, hd, Except.toOption]
      have hrest : ∀ t' ∈ pre', (dispatchStep env t').isOk = true :=
        fun t' ht => hok t' (List.mem_cons_of_mem t ht)
      simp only [List.cons_append, handle_tool_calls, hd, List.append_eq]
      rw [ih tc rest (conv ++ [p.1]) (log ++ [p.2]) hrest herr]
      simp [hmsg, hentry, List.append_assoc]

theorem filterMap_stepMsg_ids (env : Env) :
    ∀ tcs : List ToolCall, (∀ tc ∈ tcs, (dispatchStep env tc).isOk = true) →
      (tcs.filterMap (stepMsg env)).map (fun m => m.tool_call_id) =
        tcs.map fun tc => some tc.id := by
  intro tcs
  induction tcs with
  | nil => intro _; rfl
  | cons tc rest ih =>
    intro hok
    obtain ⟨fn, args, resp, _, _, _, hm, _⟩ :=
      dispatchStep_isOk_parts env tc (hok tc (List.mem_cons_self tc rest))
    have hrest := fun t ht => hok t (List.mem_cons_of_mem tc ht)
    simp [List.filterMap_cons, hm, toolMessage, ih hrest]

theorem handle_log_success (env : Env) :
    ∀ tcs conv log, (∀ en ∈ log, en.status = "success") →
      ∀ en ∈ (handle_tool_calls env tcs conv log).tool_usage_log,
        en.status = "success" := by
  intro tcs
  induction tcs with
  | nil =>
    intro conv log hl en hen
    simp only [handle_tool_calls] at hen
    exact hl en hen
  | cons tc rest ih =>
    intro conv log hl en hen
    cases hd : dispatchStep env tc with
    | error e =>
      simp only [handle_tool_calls, hd] at hen
      exact hl en hen
    | ok p =>
      simp only [handle_tool_calls, hd] at hen
      refine ih (conv ++ [p.1]) (log ++ [p.2]) ?_ en hen
      intro en' hen'
      rcases List.mem_append.mp hen' with h' | h'
      · exact hl en' h'
      · have : en' = p.2 := by simpa using h'
        rw [this]
        exact dispatchStep_ok_status env tc p hd

/-! ## Lemmas about the orchestrator -/

theorem askBody_calls_shape (env : Env) (conversation : List Message) :
    (askBody env conversation).calls = [] ∨
    (askBody env conversation).calls = [true] ∨
    (askBody env conversation).calls = [true, false] := by
  unfold askBody
  cases hg : env.getClient with
  | error e => simp [RunOutcome.calls]
  | ok u =>
    cases htr : trim_conversation_to_token_limit (seedConversation env conversation)
        env.maxTokens with
    | none => simp [RunOutcome.calls]
    | some conv2 =>
      cases hf : env.firstResponse with
      | error e => simp [RunOutcome.calls]
      | ok rm =>
        by_cases hemp : rm.tool_calls.isEmpty
        · simp [hemp, RunOutcome.calls]
        · simp only [hemp, if_false, Bool.false_eq_true]
          cases herr : (handle_tool_calls env rm.tool_calls
              (conv2 ++ [assistantMessage rm]) []).err with
          | some e => simp [herr, RunOutcome.calls]
          | none =>
            simp only [herr]
            cases htr2 : trim_conversation_to_token_limit
                (handle_tool_calls env rm.tool_calls
                  (conv2 ++ [assistantMessage rm]) []).conversation env.maxTokens with
            | none => simp [RunOutcome.calls]
            | some c4 =>
              cases hs : env.secondResponse with
              | error e => simp [RunOutcome.calls]
              | ok rm2 => simp [RunOutcome.calls]

theorem ask_calls_eq (env : Env) (conversation : List Message)
    (p : FinalResult × List Bool)
    (h : ask_openai_question env conversation = some p) :
    p.2 = (askBody env conversation).calls := by
  unfold ask_openai_question at h
  cases hb : askBody env conversation with
  | diverges => rw [hb] at h; simp at h
  | raises e c =>
    rw [hb] at h
    have := Option.some.inj h
    rw [← this, RunOutcome.calls]
  | returns r c =>
    rw [hb] at h
    have := Option.some.inj h
    rw [← this, RunOutcome.calls]

theorem ask_answer_shape (env : Env) (conversation : List Message)
    (msg : ResponseMessage) (usage : List LogEntry) (calls : List Bool)
    (h : ask_openai_question env conversation =
      some (FinalResult.answer msg usage, calls)) :
    ∃ rm, env.firstResponse = Except.ok rm ∧
      ((rm.tool_calls = [] ∧ calls = [true] ∧ usage = []) ∨
       (rm.tool_calls ≠ [] ∧ calls = [true, false] ∧
        usage = (handle_tool_calls env rm.tool_calls
          ((trim_conversation_to_token_limit (seedConversation env conversation)
              env.maxTokens).getD [] ++ [assistantMessage rm]) []).tool_usage_log)) := by
  unfold ask_openai_question askBody at h
  cases hg : env.getClient with
  | error e => simp only [hg] at h; simp at h
  | ok u =>
    simp only [hg] at h
    cases htr : trim_conversation_to_token_limit (seedConversation env conversation)
        env.maxTokens with
    | none => simp only [htr] at h; simp at h
    | some conv2 =>
      simp only [htr] at h
      cases hf : env.firstResponse with
      | error e => simp only [hf] at h; simp at h
      | ok rm =>
        simp only [hf] at h
        refine ⟨rm, rfl, ?_⟩
        by_cases hemp : rm.tool_calls.isEmpty
        · rw [if_pos hemp] at h
          simp only [Option.some.injEq, Prod.mk.injEq] at h
          obtain ⟨h1, h2⟩ := h
          obtain ⟨hm, hu⟩ := FinalResult.answer.inj h1
          exact Or.inl ⟨List.isEmpty_iff.mp hemp, h2.symm, hu.symm⟩
        · rw [if_neg hemp] at h
          cases herr : (handle_tool_calls env rm.tool_calls
              (conv2 ++ [assistantMessage rm]) []).err with
          | some e => simp only [herr] at h; simp at h
          | none =>
            simp only [herr] at h
            cases htr2 : trim_conversation_to_token_limit
                (handle_tool_calls env rm.tool_calls
                  (conv2 ++ [assistantMessage rm]) []).conversation env.maxTokens with
            | none => simp only [htr2] at h; simp at h
            | some c4 =>
              simp only [htr2] at h
              cases hs : env.secondResponse with
              | error e => simp only [hs] at h; simp at h
              | ok rm2 =>
                simp only [hs] at h
                simp only [Option.some.injEq, Prod.mk.injEq] at h
                obtain ⟨h1, h2⟩ := h
                obtain ⟨hm, hu⟩ := FinalResult.answer.inj h1
                refine Or.inr ⟨fun hnil => hemp (by simp [hnil]), h2.symm, ?_⟩
                rw [← hu]
                rfl

theorem askBody_returns_answer (env : Env) (conversation : List Message)
    (r : FinalResult) (c : List Bool)
    (hb : askBody env conversation = RunOutcome.returns r c) :
    ∃ msg usage, r = FinalResult.answer msg usage := by
  unfold askBody at hb
  cases hg : env.getClient with
  | error e => simp only [hg] at hb; simp at hb
  | ok u =>
    simp only [hg] at hb
    cases htr : trim_conversation_to_token_limit (seedConversation env conversation)
        env.maxTokens with
    | none => simp only [htr] at hb; simp at hb
    | some conv2 =>
      simp only [htr] at hb
      cases hf : env.firstResponse with
      | error e => simp only [hf] at hb; simp at hb
      | ok rm =>
        simp only [hf] at hb
        by_cases hemp : rm.tool_calls.isEmpty
        · rw [if_pos hemp] at hb
          exact ⟨rm, [], ((RunOutcome.returns.inj hb).1).symm⟩
        · rw [if_neg hemp] at hb
          cases herr : (handle_tool_calls env rm.tool_calls
              (conv2 ++ [assistantMessage rm]) []).err with
          | some e => simp only [herr] at hb; simp at hb
          | none =>
            simp only [herr] at hb
            cases htr2 : trim_conversation_to_token_limit
                (handle_tool_calls env rm.tool_calls
                  (conv2 ++ [assistantMessage rm]) []).conversation env.maxTokens with
            | none => simp only [htr2] at hb; simp at hb
            | some c4 =>
              simp only [htr2] at hb
              cases hs : env.secondResponse with
              | error e => simp only [hs] at hb; simp at hb
              | ok rm2 =>
                simp only [hs] at hb
                exact ⟨rm2, _, ((RunOutcome.returns.inj hb).1).symm⟩

/-! ## Claim theorems -/

/-- C1 (amended).  For every conversation and every positive token limit
such that the system messages alone do not already violate the loop
guard (they number at most one, or their estimated cost fits the limit),
`trim_conversation_to_token_limit` terminates, performing at most
`len(conversation)` removals (the fuel of the embedded loop), and its
result satisfies `estimate_token_count result ≤ limit` or
`len result = 1`; moreover a conversation that already has at most one
message — in particular a single system message — is returned unchanged.
The unrestricted claim is false: see the counterexample, a conversation
of two over-budget system messages on which the loop never exits. -/
theorem C1_trim_convergence (conversation : List Message) (token_limit : Nat)
    (hpos : 0 < token_limit)
    (hresidue : ¬(token_limit < estimate_token_count (conversation.filter isSystemMsg) ∧
        1 < (conversation.filter isSystemMsg).length)) :
    ∃ r, trim_conversation_to_token_limit conversation token_limit = some r ∧
      (estimate_token_count r ≤ token_limit ∨ r.length = 1) ∧
      (conversation.length ≤ 1 → r = conversation) := by
  have := hpos
  exact trimFuel_terminates token_limit conversation.length conversation le_rfl hresidue

/-- Witness for C1: a two-message conversation (system prompt plus user
message) over a limit of 1 trims successfully. -/
theorem C1_trim_convergence_witness :
    ∃ r, trim_conversation_to_token_limit smallConv 1 = some r ∧
      (estimate_token_count r ≤ 1 ∨ r.length = 1) ∧
      (smallConv.length ≤ 1 → r = smallConv) :=
  C1_trim_convergence smallConv 1 (by decide) (by decide)

/-- Counterexample to C1 as stated: on a conversation of two system
messages whose joint estimate exceeds the limit, the trim loop never
terminates — no amount of fuel makes the embedded loop exit, because the
loop guard holds and the loop body removes nothing. -/
theorem C1_trim_divergence_counterexample :
    (∀ fuel, trimFuel 1 fuel allSystemConv = none) ∧
    trim_conversation_to_token_limit allSystemConv 1 = none ∧
    1 < estimate_token_count allSystemConv ∧
    1 < allSystemConv.length ∧
    allSystemConv.all isSystemMsg = true :=
  ⟨fun fuel => trimFuel_none_of_fixed 1 allSystemConv (by decide) (by decide) fuel,
   trimFuel_none_of_fixed 1 allSystemConv (by decide) (by decide) _,
   by decide, by decide, by decide⟩

/-- C2 (code bug).  `get_profit_and_loss_statement` called with all
three parameters supplied returns Python's implicit `None`, not a
JSON-serializable result or error object: its body builds the report
handle and the filters dict and then ends without a `return`.  The
second conjunct records the behaviour the spec describes on the
missing-parameter path, which the code does implement. -/
theorem C2_profit_and_loss_returns_none :
    get_profit_and_loss_statement (some "2024-01-01") (some "2024-12-31") (some "Monthly") =
      PyReturn.pyNone ∧
    get_profit_and_loss_statement none (some "2024-12-31") (some "Monthly") =
      PyReturn.errorObj "period_start_date, periodicity and period_end_date are required" :=
  ⟨rfl, rfl⟩

/-- C3 (amended).  `estimate_token_count` returns the (non-negative,
by its `Nat` codomain) sum over exactly those messages whose content is
PRESENT (not `None`) of the per-message constant 4 plus
`int(word_count * 1.5)`; messages with no content contribute zero.  The
claim's qualification "non-empty" is corrected to "present": a message
with empty-string content also contributes 4 (see the
counterexample). -/
theorem C3_estimate_formula (messages : List Message) :
    estimate_token_count messages = specEstimatePresent messages := by
  induction messages with
  | nil => rfl
  | cons m rest ih =>
    cases hm : m.content with
    | none =>
      simp only [estimate_token_count, specEstimatePresent, List.filter_cons, hm,
        Option.isSome_none, Bool.false_eq_true, if_false, List.map_cons, List.sum_cons] at *
      omega
    | some s =>
      simp only [estimate_token_count, specEstimatePresent, List.filter_cons, hm,
        Option.isSome_some, if_true, List.map_cons, List.sum_cons, Option.getD_some] at *
      omega

/-- Counterexample to C3 as stated: a message whose content is the empty
string is counted by the code (its content is not `None`, so it
contributes the per-message constant 4), while the claim's "non-empty"
qualification assigns it zero. -/
theorem C3_estimate_counterexample :
    estimate_token_count [msgEmptyContent] = 4 ∧
    specEstimateNonempty [msgEmptyContent] = 0 ∧
    estimate_token_count [msgEmptyContent] ≠ specEstimateNonempty [msgEmptyContent] := by
  refine ⟨by decide, by decide, by decide⟩

/-- C7.  Whenever trimming returns, its result is a sublist of the input
(relative order of survivors unchanged), the system messages are exactly
those of the input (no message of role `system` is ever removed), and
the surviving non-system messages are a tail of the input's non-system
messages (only front-most non-system messages are removed). -/
theorem C7_trim_preserves_structure (conversation : List Message) (token_limit : Nat)
    (r : List Message)
    (h : trim_conversation_to_token_limit conversation token_limit = some r) :
    r.Sublist conversation ∧
    r.filter isSystemMsg = conversation.filter isSystemMsg ∧
    ∃ k, r.filter (fun m => !isSystemMsg m) =
      ((conversation.filter fun m => !isSystemMsg m).drop k) :=
  trimFuel_structure token_limit conversation.length conversation r h

/-- Witness for C7: the two-message conversation trimmed at limit 1
keeps exactly its system message. -/
theorem C7_trim_preserves_structure_witness :
    ([msgSysA] : List Message).Sublist smallConv ∧
    ([msgSysA] : List Message).filter isSystemMsg = smallConv.filter isSystemMsg ∧
    ∃ k, ([msgSysA] : List Message).filter (fun m => !isSystemMsg m) =
      ((smallConv.filter fun m => !isSystemMsg m).drop k) :=
  C7_trim_preserves_structure smallConv 1 [msgSysA] (by decide)

/-- C8.  The set of function names advertised by `get_tools()` equals
the key set of the `available_functions` lookup mapping. -/
theorem C8_registry_schema_agreement :
    (get_tools.map fun t => t.function_name).toFinset =
      (available_functions.map Prod.fst).toFinset :=
  congrArg List.toFinset (by decide)

/-- C4.  Any exception raised inside the `try` block of
`ask_openai_question` (during `get_openai_client`, the first model call,
tool dispatch, or the second model call) is caught at the orchestrator
boundary and converted into the error-shaped result
`{error: message, tool_usage: []}`; the function (total by construction
of the embedding) propagates no exception, and no external call is ever
retried: every run issues the calls `[]`, `[true]` or `[true, false]` —
the first call at most once, the second at most once, never more. -/
theorem C4_error_containment (env : Env) (conversation : List Message) :
    (∀ e calls, askBody env conversation = RunOutcome.raises e calls →
      ask_openai_question env conversation =
        some (FinalResult.failure e [], calls)) ∧
    (∀ p : FinalResult × List Bool, ask_openai_question env conversation = some p →
      p.2 = [] ∨ p.2 = [true] ∨ p.2 = [true, false]) := by
  constructor
  · intro e calls h
    unfold ask_openai_question
    rw [h]
  · intro p hp
    rw [ask_calls_eq env conversation p hp]
    exact askBody_calls_shape env conversation

/-- Witness for C4: an environment whose first model call raises `boom`
yields the error-shaped result after one issued call. -/
theorem C4_error_containment_witness :
    ask_openai_question envFirstFails [] =
      some (FinalResult.failure "boom" [], [true]) :=
  (C4_error_containment envFirstFails []).1 "boom" [true] (by decide)

/-- C5.  When dispatch reaches a ToolCallRequest whose `function_name`
is absent from `available_functions` (every request before it having
dispatched successfully), `handle_tool_calls` raises the error
`Function <name> not found.`, appends no tool-result message carrying
that request's id, and the orchestrator consequently returns
`{error, tool_usage: []}` after a single model-client call — no second
call is issued. -/
theorem C5_unknown_tool_fatal (env : Env) (rm : ResponseMessage)
    (pre post : List ToolCall) (tc : ToolCall)
    (conversation conv2 conv : List Message) (log : List LogEntry)
    (hmissing : available_functions.lookup tc.function_name = none)
    (hpre : ∀ t ∈ pre, (dispatchStep env t).isOk = true)
    (hid : tc.id ∉ pre.map fun t => t.id)
    (hclient : env.getClient = Except.ok ())
    (hfirst : env.firstResponse = Except.ok rm)
    (htc : rm.tool_calls = pre ++ tc :: post)
    (htrim : trim_conversation_to_token_limit (seedConversation env conversation)
        env.maxTokens = some conv2) :
    (handle_tool_calls env (pre ++ tc :: post) conv log).err =
      some ("Function " ++ tc.function_name ++ " not found.") ∧
    (handle_tool_calls env (pre ++ tc :: post) conv log).conversation.filter
        (fun m => m.tool_call_id == some tc.id) =
      conv.filter (fun m => m.tool_call_id == some tc.id) ∧
    ask_openai_question env conversation =
      some (FinalResult.failure ("Function " ++ tc.function_name ++ " not found.") [],
        [true]) := by
  have hstep : dispatchStep env tc =
      Except.error ("Function " ++ tc.function_name ++ " not found.") := by
    unfold dispatchStep
    rw [hmissing]
  have hnomsg : ∀ m ∈ pre.filterMap (stepMsg env), (m.tool_call_id == some tc.id) = false := by
    intro m hm
    obtain ⟨t, ht, hmt⟩ := List.mem_filterMap.mp hm
    obtain ⟨fn, args, resp, _, _, _, hsm, _⟩ := dispatchStep_isOk_parts env t (hpre t ht)
    rw [hsm] at hmt
    have : m = toolMessage t resp := (Option.some.inj hmt).symm
    rw [this]
    have hne : t.id ≠ tc.id := by
      intro hcontra
      exact hid (List.mem_map.mpr ⟨t, ht, hcontra⟩)
    simp [toolMessage, hne]
  have hblock := handle_stops_at_first_error env
    ("Function " ++ tc.function_name ++ " not found.") pre tc post conv log hpre hstep
  refine ⟨by rw [hblock], ?_, ?_⟩
  · rw [hblock]
    show (conv ++ pre.filterMap (stepMsg env)).filter _ = _
    rw [List.filter_append]
    have : (pre.filterMap (stepMsg env)).filter
        (fun m => m.tool_call_id == some tc.id) = [] :=
      List.filter_eq_nil_iff.mpr (fun m hm => by rw [hnomsg m hm]; simp)
    rw [this, List.append_nil]
  · have hemp : (pre ++ tc :: post).isEmpty = false := by
      cases pre <;> rfl
    have hblock2 := handle_stops_at_first_error env
      ("Function " ++ tc.function_name ++ " not found.") pre tc post
      (conv2 ++ [assistantMessage rm]) [] hpre hstep
    unfold ask_openai_question askBody
    rw [hclient, htrim, hfirst]
    simp only [htc, hblock2, hemp, Bool.false_eq_true, if_false]

/-- Witness for C5: the single request for `nonexistent_tool` aborts the
dispatch and the orchestrator returns the error result after one model
call. -/
theorem C5_unknown_tool_fatal_witness :
    (handle_tool_calls envUnknownTool ([] ++ tcUnknown :: []) [] []).err =
      some ("Function " ++ tcUnknown.function_name ++ " not found.") ∧
    (handle_tool_calls envUnknownTool ([] ++ tcUnknown :: []) [] []).conversation.filter
        (fun m => m.tool_call_id == some tcUnknown.id) =
      ([] : List Message).filter (fun m => m.tool_call_id == some tcUnknown.id) ∧
    ask_openai_question envUnknownTool [] =
      some (FinalResult.failure
        ("Function " ++ tcUnknown.function_name ++ " not found.") [], [true]) :=
  C5_unknown_tool_fatal envUnknownTool rmUnknown [] [] tcUnknown []
    [systemMessage envUnknownTool] [] [] (by decide) (by decide) (by decide)
    rfl rfl rfl (by decide)

/-- C6.  When every requested tool dispatches successfully,
`handle_tool_calls` appends, after the assistant message carrying the
requests, exactly one `role = "tool"` message per request in request
order — each with `tool_call_id` equal to that request's id, `name`
equal to its function name, and content the stringified implementation
result (the shape of `toolMessage`) — together with one success log
entry per request; the appended messages' `tool_call_id`s list the
request ids in order, and when the request ids are pairwise distinct
each appended message matches exactly one request of that assistant
message. -/
theorem C6_tool_result_correlation (env : Env) (rm : ResponseMessage)
    (conv : List Message) (log : List LogEntry)
    (hok : ∀ tc ∈ rm.tool_calls, (dispatchStep env tc).isOk = true) :
    handle_tool_calls env rm.tool_calls (conv ++ [assistantMessage rm]) log =
      ⟨(conv ++ [assistantMessage rm]) ++ rm.tool_calls.filterMap (stepMsg env),
       log ++ rm.tool_calls.filterMap (stepEntry env), none⟩ ∧
    (∀ tc ∈ rm.tool_calls, ∃ fn args resp,
      available_functions.lookup tc.function_name = some fn ∧
      env.parseArgs tc.function_arguments = Except.ok args ∧
      env.impl fn args = Except.ok resp ∧
      stepMsg env tc = some (toolMessage tc resp) ∧
      stepEntry env tc = some (mkLogEntry env tc args resp)) ∧
    ((rm.tool_calls.filterMap (stepMsg env)).map (fun m => m.tool_call_id) =
      rm.tool_calls.map fun tc => some tc.id) ∧
    ((rm.tool_calls.map fun tc => tc.id).Nodup →
      ∀ m ∈ rm.tool_calls.filterMap (stepMsg env),
        (rm.tool_calls.countP fun tc => m.tool_call_id == some tc.id) = 1) := by
  refine ⟨handle_ok_append env rm.tool_calls (conv ++ [assistantMessage rm]) log hok,
    fun tc htc => dispatchStep_isOk_parts env tc (hok tc htc),
    filterMap_stepMsg_ids env rm.tool_calls hok, ?_⟩
  intro hnodup m hm
  obtain ⟨tc0, htc0, hstep0⟩ := List.mem_filterMap.mp hm
  obtain ⟨fn, args, resp, _, _, _, hsm, _⟩ := dispatchStep_isOk_parts env tc0 (hok tc0 htc0)
  rw [hsm] at hstep0
  have hm0 : m = toolMessage tc0 resp := (Option.some.inj hstep0).symm
  have hid : m.tool_call_id = some tc0.id := by rw [hm0]; rfl
  rw [hid]
  have hcong : (rm.tool_calls.countP fun tc => some tc0.id == some tc.id) =
      rm.tool_calls.countP fun tc => tc.id == tc0.id := by
    refine List.countP_congr ?_
    intro t _
    simp only [beq_iff_eq, Option.some.injEq]
    exact eq_comm
  rw [hcong]
  have hmap : (rm.tool_calls.countP fun tc => tc.id == tc0.id) =
      List.count tc0.id (rm.tool_calls.map fun tc => tc.id) := by
    rw [List.count_eq_countP, List.countP_map]
    rfl
  rw [hmap]
  exact List.count_eq_one_of_mem hnodup
    (List.mem_map.mpr ⟨tc0, htc0, rfl⟩)

/-- Witness for C6: the happy-path environment dispatching the single
request `tcKnown` appends exactly its tool-result message and success
log entry. -/
theorem C6_tool_result_correlation_witness :
    handle_tool_calls envHappy rmKnown.tool_calls
        ([] ++ [assistantMessage rmKnown]) [] =
      ⟨([] ++ [assistantMessage rmKnown]) ++
        rmKnown.tool_calls.filterMap (stepMsg envHappy),
       [] ++ rmKnown.tool_calls.filterMap (stepEntry envHappy), none⟩ ∧
    (∀ tc ∈ rmKnown.tool_calls, ∃ fn args resp,
      available_functions.lookup tc.function_name = some fn ∧
      envHappy.parseArgs tc.function_arguments = Except.ok args ∧
      envHappy.impl fn args = Except.ok resp ∧
      stepMsg envHappy tc = some (toolMessage tc resp) ∧
      stepEntry envHappy tc = some (mkLogEntry envHappy tc args resp)) ∧
    ((rmKnown.tool_calls.filterMap (stepMsg envHappy)).map (fun m => m.tool_call_id) =
      rmKnown.tool_calls.map fun tc => some tc.id) ∧
    ((rmKnown.tool_calls.map fun tc => tc.id).Nodup →
      ∀ m ∈ rmKnown.tool_calls.filterMap (stepMsg envHappy),
        (rmKnown.tool_calls.countP fun tc => m.tool_call_id == some tc.id) = 1) :=
  C6_tool_result_correlation envHappy rmKnown [] [] (by decide)

/-- C9 (amended).  Every completed run of `ask_openai_question` issues
at most two model-client calls; a run whose first response contains tool
calls and which returns an answer (tool dispatch succeeded) issues
exactly two, the second with no tool schema attached
(`calls = [true, false]`); a run whose first response contains no tool
calls and returns an answer issues exactly one.  The unrestricted
"exactly two" of the claim is false: a dispatch failure ends the run
after a single call (see the counterexample). -/
theorem C9_round_trip_bound (env : Env) (conversation : List Message) :
    (∀ p : FinalResult × List Bool, ask_openai_question env conversation = some p →
      p.2.length ≤ 2) ∧
    (∀ rm msg usage calls, env.firstResponse = Except.ok rm → rm.tool_calls ≠ [] →
      ask_openai_question env conversation =
        some (FinalResult.answer msg usage, calls) →
      calls = [true, false]) ∧
    (∀ rm msg usage calls, env.firstResponse = Except.ok rm → rm.tool_calls = [] →
      ask_openai_question env conversation =
        some (FinalResult.answer msg usage, calls) →
      calls = [true]) := by
  refine ⟨?_, ?_, ?_⟩
  · intro p hp
    rw [ask_calls_eq env conversation p hp]
    rcases askBody_calls_shape env conversation with h | h | h <;> simp [h]
  · intro rm msg usage calls hfirst hne h
    obtain ⟨rm', hfirst', hshape⟩ := ask_answer_shape env conversation msg usage calls h
    have hrm : rm' = rm := by
      rw [hfirst] at hfirst'
      exact (Except.ok.inj hfirst').symm
    subst hrm
    rcases hshape with ⟨hnil, _, _⟩ | ⟨_, hcalls, _⟩
    · exact absurd hnil hne
    · exact hcalls
  · intro rm msg usage calls hfirst hnil h
    obtain ⟨rm', hfirst', hshape⟩ := ask_answer_shape env conversation msg usage calls h
    have hrm : rm' = rm := by
      rw [hfirst] at hfirst'
      exact (Except.ok.inj hfirst').symm
    subst hrm
    rcases hshape with ⟨_, hcalls, _⟩ | ⟨hne, _, _⟩
    · exact hcalls
    · exact absurd hnil hne

/-- Witness for C9: the happy-path run issues exactly the two calls
`[true, false]` — first with the tool schema, second without. -/
theorem C9_round_trip_bound_witness :
    ask_openai_question envHappy [] =
      some (FinalResult.answer rmFinal
        [mkLogEntry envHappy tcKnown "raw_args" "ok_result"], [true, false]) ∧
    ([true, false] : List Bool) = [true, false] :=
  ⟨by decide,
   (C9_round_trip_bound envHappy []).2.1 rmKnown rmFinal
     [mkLogEntry envHappy tcKnown "raw_args" "ok_result"] [true, false]
     rfl (by decide) (by decide)⟩

/-- Counterexample to C9 as stated: a run whose first response contains
a tool call naming an unregistered function completes after a single
model-client call — not exactly two. -/
theorem C9_single_call_counterexample :
    envUnknownTool.firstResponse = Except.ok rmUnknown ∧
    rmUnknown.tool_calls ≠ [] ∧
    ask_openai_question envUnknownTool [] =
      some (FinalResult.failure "Function nonexistent_tool not found." [], [true]) ∧
    ([true] : List Bool).length = 1 :=
  ⟨rfl, by decide, by decide, rfl⟩

/-- C10.  Every usage-log entry contained in the `tool_usage` list of
any result returned by `ask_openai_question` has status `success`: a
failing tool re-raises before its entry is appended, and the
orchestrator's error result always carries `tool_usage = []`. -/
theorem C10_tool_usage_success (env : Env) (conversation : List Message)
    (p : FinalResult × List Bool)
    (h : ask_openai_question env conversation = some p) :
    ∀ en ∈ p.1.usage, en.status = "success" := by
  unfold ask_openai_question at h
  cases hb : askBody env conversation with
  | diverges => rw [hb] at h; simp at h
  | raises e c =>
    rw [hb] at h
    have h2 := Option.some.inj h
    rw [← h2]
    intro en hen
    simp [FinalResult.usage] at hen
  | returns r c =>
    obtain ⟨msg, usage, hr⟩ := askBody_returns_answer env conversation r c hb
    subst hr
    rw [hb] at h
    have h2 := Option.some.inj h
    rw [← h2]
    have hask : ask_openai_question env conversation =
        some (FinalResult.answer msg usage, c) := by
      unfold ask_openai_question
      rw [hb]
    obtain ⟨rm, _, hshape⟩ := ask_answer_shape env conversation msg usage c hask
    rcases hshape with ⟨_, _, husage⟩ | ⟨_, _, husage⟩
    · intro en hen
      rw [husage] at hen
      simp [FinalResult.usage] at hen
    · intro en hen
      have hen' : en ∈ (handle_tool_calls env rm.tool_calls
          ((trim_conversation_to_token_limit (seedConversation env conversation)
              env.maxTokens).getD [] ++ [assistantMessage rm]) []).tool_usage_log := by
        rw [← husage]
        simpa [FinalResult.usage] using hen
      exact handle_log_success env rm.tool_calls _ []
        (fun e' he' => by simp at he') en hen'

/-- Witness for C10: the single entry logged by the happy-path run has
status `success`. -/
theorem C10_tool_usage_success_witness :
    (mkLogEntry envHappy tcKnown "raw_args" "ok_result").status = "success" :=
  C10_tool_usage_success envHappy []
    (FinalResult.answer rmFinal [mkLogEntry envHappy tcKnown "raw_args" "ok_result"],
      [true, false])
    (by decide) (mkLogEntry envHappy tcKnown "raw_args" "ok_result") (by decide)

end ErpnextChatgpt
